import Mathlib

/-!
Verification of the order (transaction) creation and query paths of the
bookstore backend (`src/controllers/transaction.controller.ts`).

The controller code is embedded shallowly:
* `Book`, `Order`, `OrderItem`, `User`, `DB` mirror the Prisma data model
  used by the controller (stock and price as integer columns — the book
  controller stores `Number(price)` "Converted to Integer" — and soft
  deletion via `deletedAt` modelled as a flag).
* `createTransaction` is split exactly as the source is: everything before
  `prisma.$transaction` (input validation, the `findMany` snapshot read and
  the stock-sufficiency loop) is `planRequest`; the `prisma.$transaction`
  callback (the order insert plus the unconditional `book.update` writes) is
  `commitPlan`.  `$transaction` is atomic, so `commitPlan` either applies
  the whole write set or, on a storage fault, nothing.
* `getTransactionDetail` and `getTransactionStatistics` are embedded from
  the same file.
-/

namespace Bookstore

/-- A JSON value arriving in a request body in a `quantity` field: a finite
number or a string (JSON has no NaN literal; strings may coerce to NaN). -/
inductive JsVal where
  | num (q : ℚ)
  | str (s : String)
deriving Repr, DecidableEq

/-- Result of JavaScript `Number(-)` coercion: a finite number or NaN. -/
inductive JsNum where
  | fin (q : ℚ)
  | nan
deriving Repr, DecidableEq

/-- Decimal reading of an all-digit string. -/
def digitsToNat (s : String) : Nat :=
  s.data.foldl (fun n c => 10 * n + (c.toNat - 48)) 0

/-- JavaScript `Number(-)` coercion, modelled on the inputs the controller
can receive: finite numbers pass through, digit strings parse to naturals,
any other string coerces to NaN. -/
def jsToNumber : JsVal → JsNum
  | .num q => .fin q
  | .str s =>
    if s.data ≠ [] ∧ s.data.all Char.isDigit then .fin (digitsToNat s)
    else .nan

/-- The check on line 33 of the controller:
`numQuantity <= 0 || !Number.isInteger(numQuantity) || isNaN(numQuantity)`.
NaN fails `Number.isInteger`; a finite value fails when it is non-positive
or non-integral. -/
def quantityInvalid : JsNum → Bool
  | .nan => true
  | .fin q => decide (q ≤ 0) || decide (q.den ≠ 1)

/-- One element of the request `items` array (`OrderItemInput` in the source). -/
structure OrderItemInput where
  book_id : String
  quantity : JsVal
deriving Repr, DecidableEq

/-- The `items` field of the request body: absent, present but not an array,
or an actual array (`!items || !Array.isArray(items)` distinguishes these). -/
inductive ItemsField where
  | missing
  | notArray
  | arr (items : List OrderItemInput)
deriving Repr, DecidableEq

/-- A row of the `book` table as the controller reads it. -/
structure Book where
  id : String
  title : String
  writer : String
  publisher : String
  price : ℤ
  stockQuantity : ℤ
  genreName : Option String
  deleted : Bool
deriving Repr, DecidableEq

/-- A row of the `orderItem` table: the controller persists only the book id
and the quantity for each line (no price column). -/
structure OrderItem where
  bookId : String
  quantity : ℤ
deriving Repr, DecidableEq

/-- A row of the `order` table together with its line items. -/
structure Order where
  id : String
  userId : String
  orderItems : List OrderItem
deriving Repr, DecidableEq

/-- A row of the `user` table (the fields the controller selects). -/
structure User where
  id : String
  username : String
  email : String
deriving Repr, DecidableEq

/-- The persistent store visible to the controller. -/
structure DB where
  users : List User
  books : List Book
  orders : List Order
deriving Repr, DecidableEq

/-- Responses of `createTransaction`, with the literal status codes and
message strings of the source (quotation marks around the title in the 409
message are dropped). -/
inductive CResp where
  | unauth
  | badRequest (message : String)
  | notFoundBooks
  | conflict (message : String)
  | serverErrorValidation
  | txnFailed
  | created (transaction_id : String) (total_quantity : ℤ) (total_price : ℤ)
deriving Repr, DecidableEq

/-- HTTP status of each response. -/
def CResp.status : CResp → Nat
  | .unauth => 401
  | .badRequest _ => 400
  | .notFoundBooks => 404
  | .conflict _ => 409
  | .serverErrorValidation => 500
  | .txnFailed => 500
  | .created _ _ _ => 201

/-- Message text of each response, as in the source. -/
def CResp.message : CResp → String
  | .unauth => "User not authenticated."
  | .badRequest m => m
  | .notFoundBooks => "Some books not found or are inactive."
  | .conflict m => m
  | .serverErrorValidation => "Server error during validation."
  | .txnFailed => "Transaction failed. Stock remains unchanged."
  | .created _ _ _ => "Transaction created successfully and stock updated."

/-- The 400 message for an invalid quantity, naming the offending book id. -/
def badQtyMsg (bid : String) : String :=
  "Quantity for book " ++ bid ++ " must be a positive integer."

/-- The 409 message for insufficient stock, naming title, available and
requested quantities. -/
def insufficientMsg (title : String) (avail req : ℤ) : String :=
  "Stock for " ++ title ++ " is insufficient. Available: " ++ toString avail ++
    ", Requested: " ++ toString req ++ "."

/-- The quantity-validation loop (lines 31-40): each item's quantity is
coerced with `Number(-)` and rejected unless it is a positive integer; on
success the coerced integer quantities are returned in order. -/
def validateQuantities : List OrderItemInput → Except CResp (List (String × ℤ))
  | [] => .ok []
  | it :: rest =>
    match jsToNumber it.quantity with
    | .nan => .error (.badRequest (badQtyMsg it.book_id))
    | .fin q =>
      if q ≤ 0 ∨ q.den ≠ 1 then .error (.badRequest (badQtyMsg it.book_id))
      else
        match validateQuantities rest with
        | .error r => .error r
        | .ok tail => .ok ((it.book_id, q.num) :: tail)

/-- The `findMany` snapshot read (lines 46-48): all non-deleted books whose
id occurs in the requested id list, in table order. -/
def findActiveBooks (db : DB) (ids : List String) : List Book :=
  db.books.filter (fun b => ids.contains b.id && !b.deleted)

/-- Lookup in the `availableBooks` map built from the fetched rows (first
row wins; book ids are unique in the store). -/
def lookupBook (books : List Book) (bid : String) : Option Book :=
  books.find? (fun b => b.id == bid)

/-- `Map.set` on the `stockUpdates` map: overwrite an existing key in place,
otherwise append (JavaScript `Map` preserves insertion order). -/
def mapSet (m : List (String × ℤ)) (k : String) (v : ℤ) : List (String × ℤ) :=
  if m.any (fun p => p.1 == k) then
    m.map (fun p => if p.1 == k then (k, v) else p)
  else m ++ [(k, v)]

/-- Everything `createTransaction` computed before the `prisma.$transaction`
call opens: validated line items, running totals, and the planned new stock
value for every affected book. -/
structure Plan where
  userId : String
  items : List (String × ℤ)
  totalQuantity : ℤ
  totalPrice : ℤ
  stockUpdates : List (String × ℤ)
deriving Repr, DecidableEq

/-- The stock-sufficiency loop (lines 57-73) over the fetched snapshot: a
missing map entry makes `book!` throw (caught as a 500); a line with
insufficient stock returns the 409; otherwise totals accumulate and the
planned new stock `book.stockQuantity - item.quantity` is recorded. -/
def stockLoop (avail : List Book) :
    List (String × ℤ) → ℤ → ℤ → List (String × ℤ) →
    Except CResp (ℤ × ℤ × List (String × ℤ))
  | [], tq, tp, su => .ok (tq, tp, su)
  | (bid, qty) :: rest, tq, tp, su =>
    match lookupBook avail bid with
    | none => .error .serverErrorValidation
    | some b =>
      if b.stockQuantity < qty then
        .error (.conflict (insufficientMsg b.title b.stockQuantity qty))
      else
        stockLoop avail rest (tq + qty) (tp + b.price * qty)
          (mapSet su b.id (b.stockQuantity - qty))

/-- The whole pre-transaction phase of `createTransaction` (lines 14-79):
auth check, items-shape check, quantity validation, snapshot read, 404
check, and the stock-sufficiency loop.  Nothing here writes to the store. -/
def planRequest (db : DB) (userId : Option String) (itemsField : ItemsField) :
    Except CResp Plan :=
  match userId with
  | none => .error .unauth
  | some uid =>
    match itemsField with
    | .missing => .error (.badRequest "Items are required")
    | .notArray => .error (.badRequest "Items are required")
    | .arr items =>
      if items.isEmpty then .error (.badRequest "Items are required")
      else
        match validateQuantities items with
        | .error r => .error r
        | .ok vitems =>
          let bookIds := vitems.map Prod.fst
          let books := findActiveBooks db bookIds
          if books.length ≠ bookIds.length then .error .notFoundBooks
          else
            match stockLoop books vitems 0 0 [] with
            | .error r => .error r
            | .ok (tq, tp, su) => .ok ⟨uid, vitems, tq, tp, su⟩

/-- The write set of the `$transaction` callback: every book whose id has a
planned update gets its stock column set to the planned value; other books
are untouched.  The write is unconditional: no stock re-read guards it. -/
def applyStockUpdates (books : List Book) (su : List (String × ℤ)) : List Book :=
  books.map (fun b =>
    match su.find? (fun p => p.1 == b.id) with
    | some p => { b with stockQuantity := p.2 }
    | none => b)

/-- The `prisma.$transaction` callback (lines 84-110): insert the order with
its line items, then set each affected book's stock to the pre-computed
value.  `book.update` throws when no row has the id, which aborts the whole
transaction; atomicity means either every write lands or none does. -/
def commitPlan (db : DB) (orderId : String) (p : Plan) : Option DB :=
  if p.stockUpdates.all (fun u => db.books.any (fun b => b.id == u.1)) then
    some { db with
      orders := db.orders ++ [⟨orderId, p.userId, p.items.map (fun it => ⟨it.1, it.2⟩)⟩],
      books := applyStockUpdates db.books p.stockUpdates }
  else none

/-- Storage operations a request performs, for claims about storage being
untouched: the `findMany` snapshot read and the `$transaction` round trip. -/
inductive StorageOp where
  | readBooks (ids : List String)
  | txnWrite
deriving Repr, DecidableEq

/-- The book ids of the request, as passed to `findMany`. -/
def itemsIds : ItemsField → List String
  | .arr items => items.map OrderItemInput.book_id
  | _ => []

/-- The full sequential `createTransaction` handler: the pre-transaction
phase, then the atomic commit.  `storageFault` injects a persistence fault
inside the transaction; the catch block answers 500 and the transaction
rolls back.  Returns the store after the call, the response, and the list
of storage operations performed. -/
def createTransaction (db : DB) (userId : Option String) (itemsField : ItemsField)
    (newOrderId : String) (storageFault : Bool) : DB × CResp × List StorageOp :=
  match planRequest db userId itemsField with
  | .error r =>
    match r with
    | .notFoundBooks => (db, r, [.readBooks (itemsIds itemsField)])
    | .conflict m => (db, .conflict m, [.readBooks (itemsIds itemsField)])
    | .serverErrorValidation => (db, r, [.readBooks (itemsIds itemsField)])
    | _ => (db, r, [])
  | .ok p =>
    if storageFault then (db, .txnFailed, [.readBooks (itemsIds itemsField), .txnWrite])
    else
      match commitPlan db newOrderId p with
      | none => (db, .txnFailed, [.readBooks (itemsIds itemsField), .txnWrite])
      | some db2 =>
        (db2, .created newOrderId p.totalQuantity p.totalPrice,
          [.readBooks (itemsIds itemsField), .txnWrite])

/-- The fields `getTransactionDetail` selects from the referenced book. -/
structure ItemBookView where
  title : String
  writer : String
  publisher : String
  price : ℤ
deriving Repr, DecidableEq

/-- One order line as expanded by the detail query (`include` of the book). -/
structure ItemView where
  bookId : String
  quantity : ℤ
  book : Option ItemBookView
deriving Repr, DecidableEq

/-- An order expanded with its user and its lines' book details. -/
structure TxnDetail where
  id : String
  userId : String
  user : Option User
  orderItems : List ItemView
deriving Repr, DecidableEq

/-- Response of `getTransactionDetail`. -/
inductive DetailResp where
  | notFound
  | ok (data : TxnDetail)
deriving Repr, DecidableEq

/-- First book row with the given id (`findUnique` on the primary key; the
detail query applies no `deletedAt` filter). -/
def bookFor (db : DB) (bid : String) : Option Book :=
  db.books.find? (fun b => b.id == bid)

/-- Expansion performed by the `include` clauses of the detail query. -/
def expandOrder (db : DB) (o : Order) : TxnDetail :=
  { id := o.id
    userId := o.userId
    user := db.users.find? (fun u => u.id == o.userId)
    orderItems := o.orderItems.map (fun it =>
      { bookId := it.bookId
        quantity := it.quantity
        book := (bookFor db it.bookId).map
          (fun b => ⟨b.title, b.writer, b.publisher, b.price⟩) }) }

/-- `getTransactionDetail` (lines 164-207): `findUnique` filtered by both
the order id and the authenticated user id; a missing row — whether the
order does not exist or belongs to someone else — yields the same 404. -/
def getTransactionDetail (db : DB) (userId : String) (oid : String) : DetailResp :=
  match db.orders.find? (fun o => o.id == oid && o.userId == userId) with
  | none => .notFound
  | some o => .ok (expandOrder db o)

/-- The line items of every order, in table order (`findMany` over all
orders with their items, iterated in the statistics loop). -/
def allItems (db : DB) : List OrderItem :=
  (db.orders.map Order.orderItems).flatten

/-- The genre-bucket key of a book: its genre's name, or the sentinel when
the book has no genre (`item.book.genre?.name || "Unknown Genre"`; the `||`
also sends an empty genre name to the sentinel). -/
def genreKey (b : Book) : String :=
  match b.genreName with
  | some n => if n = "" then "Unknown Genre" else n
  | none => "Unknown Genre"

/-- Add a quantity to a genre's bucket:
`genreCount[genreName] = (genreCount[genreName] || 0) + item.quantity`.
A new key is appended, preserving first-encounter insertion order. -/
def bumpGenre (m : List (String × ℤ)) (g : String) (q : ℤ) : List (String × ℤ) :=
  if m.any (fun p => p.1 == g) then
    m.map (fun p => if p.1 == g then (p.1, p.2 + q) else p)
  else m ++ [(g, q)]

/-- One iteration of the statistics loop (lines 223-232): add the line's
subtotal at the book's current price and bump its genre bucket.  The Prisma
relation guarantees the book row exists; a dangling line is skipped. -/
def statsStep (db : DB) (acc : ℤ × List (String × ℤ)) (it : OrderItem) :
    ℤ × List (String × ℤ) :=
  match bookFor db it.bookId with
  | none => acc
  | some b => (acc.1 + b.price * it.quantity, bumpGenre acc.2 (genreKey b) it.quantity)

/-- The statistics aggregation: total revenue at current prices and the
per-genre quantity buckets in first-encounter order. -/
def statsAgg (db : DB) : ℤ × List (String × ℤ) :=
  (allItems db).foldl (statsStep db) (0, [])

/-- Stable insertion into a list sorted by descending count: an element
sinks below every earlier element whose count is at least its own, exactly
as the stable `Array.prototype.sort` with comparator `(a, b) => b[1] - a[1]`
orders ties by original position. -/
def insertDesc (x : String × ℤ) : List (String × ℤ) → List (String × ℤ)
  | [] => [x]
  | y :: ys => if y.2 ≥ x.2 then y :: insertDesc x ys else x :: y :: ys

/-- Stable sort by descending count (the `sortedGenres` array). -/
def sortDesc (l : List (String × ℤ)) : List (String × ℤ) :=
  l.foldl (fun acc x => insertDesc x acc) []

/-- The statistics payload. -/
structure Stats where
  total_transactions : Nat
  average_transaction_amount : ℚ
  most_book_sales_genre : Option String
  fewest_book_sales_genre : Option String
deriving Repr, DecidableEq

/-- `getTransactionStatistics` (lines 210-256): order count, revenue at
current prices divided by the count (0 when no orders), and the first and
last entries of the genre buckets sorted by descending quantity. -/
def getTransactionStatistics (db : DB) : Stats :=
  let totalTransactions := db.orders.length
  let agg := statsAgg db
  let sortedGenres := sortDesc agg.2
  { total_transactions := totalTransactions
    average_transaction_amount :=
      if totalTransactions > 0 then (agg.1 : ℚ) / (totalTransactions : ℚ) else 0
    most_book_sales_genre := sortedGenres.head?.map Prod.fst
    fewest_book_sales_genre := sortedGenres.getLast?.map Prod.fst }

/-- Spec-side total quantity of a validated request: the sum of the
requested quantities over all lines. -/
def specTotalQuantity (vitems : List (String × ℤ)) : ℤ :=
  (vitems.map Prod.snd).sum

/-- Spec-side total price of a validated request: the sum over all lines of
the book's unit price times the requested quantity. -/
def specTotalPrice (db : DB) (vitems : List (String × ℤ)) : ℤ :=
  (vitems.map (fun p =>
    match bookFor db p.1 with
    | none => 0
    | some b => b.price * p.2)).sum

/-- Spec-side total revenue: the sum over every order line of the book's
current price times the line's quantity. -/
def specRevenue (db : DB) : ℤ :=
  ((allItems db).map (fun it =>
    match bookFor db it.bookId with
    | none => 0
    | some b => b.price * it.quantity)).sum

/-- The first request line whose book's stock is below the requested
quantity, with the requested quantity. -/
def firstInsufficient (db : DB) : List (String × ℤ) → Option (Book × ℤ)
  | [] => none
  | p :: rest =>
    match bookFor db p.1 with
    | none => none
    | some b =>
      if b.stockQuantity < p.2 then some (b, p.2) else firstInsufficient db rest

/-- Pick of two optional genre buckets by larger count, ties to the left
(the earlier-encountered entry). -/
def combineMax : Option (String × ℤ) → Option (String × ℤ) → Option (String × ℤ)
  | none, b => b
  | a, none => a
  | some a, some b => if a.2 ≥ b.2 then some a else some b

/-- The first entry of a bucket list attaining the maximal count. -/
def firstMaxEntry : List (String × ℤ) → Option (String × ℤ)
  | [] => none
  | x :: xs => combineMax (some x) (firstMaxEntry xs)

/-- Pick of two optional genre buckets by smaller count, ties to the right
(the later-encountered entry). -/
def combineMin : Option (String × ℤ) → Option (String × ℤ) → Option (String × ℤ)
  | none, b => b
  | a, none => a
  | some a, some b => if a.2 ≥ b.2 then some b else some a

/-- The last entry of a bucket list attaining the minimal count. -/
def lastMinEntry : List (String × ℤ) → Option (String × ℤ)
  | [] => none
  | x :: xs => combineMin (some x) (lastMinEntry xs)

/-- Modelled from the spec: the fewest-sold genre with ties broken in
favour of the first-encountered entry of the aggregation, as the spec's
tie-breaking sentence reads. -/
def specFewestFirstEncountered : List (String × ℤ) → Option (String × ℤ)
  | [] => none
  | x :: xs =>
    match specFewestFirstEncountered xs with
    | none => some x
    | some m => if x.2 ≤ m.2 then some x else some m

/-- `N` identical single-line requests for `q` copies of book `bid`, run
strictly one after the other (each handler sees the store the previous one
left), counting the 201 responses. -/
def runSerial (uid bid oid : String) (q : ℕ) : Nat → DB → DB × Nat
  | 0, db => (db, 0)
  | n + 1, db =>
    let r := createTransaction db (some uid) (.arr [⟨bid, .num (q : ℚ)⟩]) oid false
    let rest := runSerial uid bid oid q n r.1
    (rest.1, rest.2 + (if r.2.1.status == 201 then 1 else 0))

/-- The items-shape rejection on line 22:
`!items || !Array.isArray(items) || items.length === 0`. -/
def itemsShapeBad : ItemsField → Bool
  | .missing => true
  | .notArray => true
  | .arr items => items.isEmpty

/-- Book fixture: active book with the given id, title, price and stock. -/
def fxBook (i t : String) (price stock : ℤ) (g : Option String) : Book :=
  ⟨i, t, "W1", "P1", price, stock, g, false⟩

/-- Store with one active book `b1` (price 10, stock 3) and one user. -/
def oneBookDb : DB :=
  ⟨[⟨"u1", "user1", "m1"⟩], [fxBook "b1" "T1" 10 3 (some "Fiction")], []⟩

/-- Store with two users and one order owned by user `uA`. -/
def dbOwn : DB :=
  ⟨[⟨"uA", "userA", "mA"⟩, ⟨"uB", "userB", "mB"⟩],
   [fxBook "b1" "T1" 10 5 none],
   [⟨"o1", "uA", [⟨"b1", 1⟩]⟩]⟩

/-- The statistics example: order of 2 Fiction books at price 10 and order
of 3 Science books at price 5. -/
def dbStats : DB :=
  ⟨[⟨"u1", "user1", "m1"⟩],
   [fxBook "bA" "Book A" 10 10 (some "Fiction"), fxBook "bB" "Book B" 5 10 (some "Science")],
   [⟨"o1", "u1", [⟨"bA", 2⟩]⟩, ⟨"o2", "u1", [⟨"bB", 3⟩]⟩]⟩

/-- A store whose genre aggregation ties at the minimum: Fiction 1 (first
encountered), Science 1, History 5. -/
def dbTie : DB :=
  ⟨[⟨"u1", "user1", "m1"⟩],
   [fxBook "bF" "F" 10 9 (some "Fiction"), fxBook "bS" "S" 10 9 (some "Science"),
    fxBook "bH" "H" 10 9 (some "History")],
   [⟨"o1", "u1", [⟨"bF", 1⟩]⟩, ⟨"o2", "u1", [⟨"bS", 1⟩]⟩, ⟨"o3", "u1", [⟨"bH", 5⟩]⟩]⟩

/-- Two racing single-line requests for 2 copies of `b1` (stock 3). -/
def raceItems : ItemsField := .arr [⟨"b1", .num 2⟩]

/-- The plan both racing handlers compute from the same stock-3 snapshot of
`oneBookDb`. -/
def racePlan : Plan := ⟨"u1", [("b1", 2)], 2, 20, [("b1", 1)]⟩

/-- The store after both racing commits land. -/
def raceFinal : DB :=
  ⟨[⟨"u1", "user1", "m1"⟩], [fxBook "b1" "T1" 10 1 (some "Fiction")],
   [⟨"oA", "u1", [⟨"b1", 2⟩]⟩, ⟨"oB", "u1", [⟨"b1", 2⟩]⟩]⟩

/-- Snapshot store for the stale-write counterexample: stock 5. -/
def staleDb : DB := ⟨[], [fxBook "b1" "T1" 10 5 none], []⟩

/-- Store at write time for the stale-write counterexample: stock 1. -/
def lowDb : DB := ⟨[], [fxBook "b1" "T1" 10 1 none], []⟩

/-- The plan computed from `staleDb` for 3 copies of `b1`. -/
def stalePlan : Plan := ⟨"u1", [("b1", 3)], 3, 30, [("b1", 2)]⟩

/-- The store `commitPlan lowDb "o1" stalePlan` produces. -/
def staleCommitted : DB :=
  ⟨[], [fxBook "b1" "T1" 10 2 none], [⟨"o1", "u1", [⟨"b1", 3⟩]⟩]⟩

/-- Store with one active book, for the duplicate-id counterexample. -/
def dupDb : DB := ⟨[], [fxBook "b1" "T1" 10 5 (some "G")], []⟩

/-- One committed order on a book priced 10. -/
def priceDbA : DB :=
  ⟨[⟨"u1", "user1", "m1"⟩], [fxBook "bA" "Book A" 10 10 (some "Fiction")],
   [⟨"o1", "u1", [⟨"bA", 2⟩]⟩]⟩

/-- The same store after the book's price was updated to 15: identical
orders, different price column. -/
def priceDbB : DB :=
  ⟨[⟨"u1", "user1", "m1"⟩], [fxBook "bA" "Book A" 15 10 (some "Fiction")],
   [⟨"o1", "u1", [⟨"bA", 2⟩]⟩]⟩

/-- A book used by the serial no-oversell witness. -/
def serialBook : Book := fxBook "b1" "T1" 10 3 none

/-- Store holding only `serialBook`. -/
def serialDb : DB := ⟨[], [serialBook], []⟩

theorem find?_key_of_nodup {α : Type} (key : α → String) (p : α → Bool)
    (l : List α) (hnd : (l.map key).Nodup) (x : α) (hx : x ∈ l)
    (hpx : p x = true) (hkey : ∀ y, p y = true → key y = key x) :
    l.find? p = some x := by
  induction l with
  | nil => cases hx
  | cons a as ih =>
    have hsplit : (∀ y ∈ as, ¬key y = key a) ∧ (as.map key).Nodup := by simpa using hnd
    rcases hsplit with ⟨hka, hnd2⟩
    by_cases hpa : p a = true
    · rw [List.find?_cons_of_pos _ hpa]
      rcases List.mem_cons.mp hx with rfl | hmem
      · rfl
      · exact absurd (hkey a hpa).symm (hka x hmem)
    · rw [List.find?_cons_of_neg _ (by simpa using hpa)]
      rcases List.mem_cons.mp hx with rfl | hmem
      · exact absurd hpx hpa
      · exact ih hnd2 hmem

/-- C8: `getTransactionDetail` returns the very same `notFound` response
whether the order id does not exist or the order is owned by a different
user — a caller who does not own the order cannot distinguish the two —
and the owner receives the order expanded with its lines, book details and
user summary. -/
theorem c8_ownership_isolation (db : DB) (uid oid : String) :
    ((∀ o ∈ db.orders, o.id = oid → o.userId ≠ uid) →
      getTransactionDetail db uid oid = .notFound) ∧
    ((db.orders.map Order.id).Nodup →
      ∀ o ∈ db.orders, o.id = oid → o.userId = uid →
        getTransactionDetail db uid oid = .ok (expandOrder db o)) := by
  constructor
  · intro h
    have hnone : db.orders.find? (fun o => o.id == oid && o.userId == uid) = none := by
      rw [List.find?_eq_none]
      intro o ho hcon
      simp only [Bool.and_eq_true, beq_iff_eq] at hcon
      exact h o ho hcon.1 hcon.2
    simp [getTransactionDetail, hnone]
  · intro hnd o ho hid huid
    have hsome : db.orders.find? (fun o => o.id == oid && o.userId == uid) = some o := by
      apply find?_key_of_nodup Order.id _ _ hnd o ho
      · simp [hid, huid]
      · intro y hy
        simp only [Bool.and_eq_true, beq_iff_eq] at hy
        rw [hy.1, hid]
    simp [getTransactionDetail, hsome]

/-- Witness for C8 on a concrete store: user `uB` querying user `uA`'s
order `o1` gets `notFound`, while `uA` gets the expanded order. -/
theorem c8_ownership_isolation_witness :
    getTransactionDetail dbOwn "uB" "o1" = .notFound ∧
    getTransactionDetail dbOwn "uA" "o1" =
      .ok (expandOrder dbOwn ⟨"o1", "uA", [⟨"b1", 1⟩]⟩) := by
  constructor
  · exact (c8_ownership_isolation dbOwn "uB" "o1").1 (by decide)
  · exact (c8_ownership_isolation dbOwn "uA" "o1").2 (by decide)
      ⟨"o1", "uA", [⟨"b1", 1⟩]⟩ (by decide) rfl rfl

/-- C10: order lines persist only book id and quantity, so the query paths
price them at the book's price at query time: two stores with identical
orders but different price columns report different statistics averages and
different detail payloads; and with no orders at all, both the most- and
fewest-sold genre are null. -/
theorem c10_current_price_dependence :
    (priceDbA.orders = priceDbB.orders ∧
     (getTransactionStatistics priceDbA).average_transaction_amount ≠
       (getTransactionStatistics priceDbB).average_transaction_amount ∧
     getTransactionDetail priceDbA "u1" "o1" ≠ getTransactionDetail priceDbB "u1" "o1") ∧
    (∀ db : DB, db.orders = [] →
      (getTransactionStatistics db).most_book_sales_genre = none ∧
      (getTransactionStatistics db).fewest_book_sales_genre = none) := by
  constructor
  · refine ⟨by decide, ?_, by decide⟩
    have hA : (getTransactionStatistics priceDbA).average_transaction_amount = 20 := by
      have h1 : (statsAgg priceDbA).1 = 20 := by decide
      have h2 : priceDbA.orders.length = 1 := by decide
      simp only [getTransactionStatistics, h1, h2]
      norm_num
    have hB : (getTransactionStatistics priceDbB).average_transaction_amount = 30 := by
      have h1 : (statsAgg priceDbB).1 = 30 := by decide
      have h2 : priceDbB.orders.length = 1 := by decide
      simp only [getTransactionStatistics, h1, h2]
      norm_num
    rw [hA, hB]
    norm_num
  · intro db h
    simp [getTransactionStatistics, statsAgg, allItems, h, sortDesc]

/-- Witness for C10 at the empty store. -/
theorem c10_current_price_dependence_witness :
    (getTransactionStatistics ⟨[], [], []⟩).most_book_sales_genre = none ∧
    (getTransactionStatistics ⟨[], [], []⟩).fewest_book_sales_genre = none :=
  c10_current_price_dependence.2 ⟨[], [], []⟩ rfl

/-- C3: whenever `createTransaction` does not answer 201 — invalid input,
unknown book, insufficient stock on any line, or a storage fault inside the
atomic unit — the store is returned exactly as it was: no order, no order
line and no stock change survives; and the transaction-failure response
carries the literal "stock remains unchanged" message. -/
theorem c3_failure_atomic (db : DB) (userId : Option String) (itemsF : ItemsField)
    (oid : String) (fault : Bool)
    (h : (createTransaction db userId itemsF oid fault).2.1.status ≠ 201) :
    (createTransaction db userId itemsF oid fault).1 = db ∧
    ((createTransaction db userId itemsF oid fault).2.1 = .txnFailed →
      (createTransaction db userId itemsF oid fault).2.1.message =
        "Transaction failed. Stock remains unchanged.") := by
  refine ⟨?_, fun hr => by rw [hr]; rfl⟩
  rcases hpr : planRequest db userId itemsF with r | p
  · cases r <;> simp [createTransaction, hpr]
  · cases fault with
    | true => simp [createTransaction, hpr]
    | false =>
      rcases hc : commitPlan db oid p with _ | db2
      · simp [createTransaction, hpr, hc]
      · exact absurd (by simp [createTransaction, hpr, hc, CResp.status]) h

/-- Witness for C3: a storage fault inside the transaction on a valid
request leaves the one-book store untouched and reports the stock-unchanged
message. -/
theorem c3_failure_atomic_witness :
    (createTransaction oneBookDb (some "u1") raceItems "o1" true).1 = oneBookDb ∧
    ((createTransaction oneBookDb (some "u1") raceItems "o1" true).2.1 = .txnFailed →
      (createTransaction oneBookDb (some "u1") raceItems "o1" true).2.1.message =
        "Transaction failed. Stock remains unchanged.") :=
  c3_failure_atomic oneBookDb (some "u1") raceItems "o1" true (by decide)

theorem validateQuantities_error_of_invalid (items : List OrderItemInput)
    (h : ∃ it ∈ items, quantityInvalid (jsToNumber it.quantity) = true) :
    ∃ m, validateQuantities items = .error (.badRequest m) := by
  induction items with
  | nil => rcases h with ⟨x, hx, _⟩; cases hx
  | cons it rest ih =>
    rcases h with ⟨x, hx, hinv⟩
    rcases hj : jsToNumber it.quantity with q | _
    · have hcond : (q ≤ 0 ∨ q.den ≠ 1) ∨ ∃ y ∈ rest, quantityInvalid (jsToNumber y.quantity) = true := by
        rcases List.mem_cons.mp hx with rfl | hmem
        · rw [hj] at hinv
          simp only [quantityInvalid, Bool.or_eq_true, decide_eq_true_eq] at hinv
          exact Or.inl hinv
        · exact Or.inr ⟨x, hmem, hinv⟩
      rcases hcond with hbad | hrest
      · exact ⟨badQtyMsg it.book_id, by simp [validateQuantities, hj, hbad]⟩
      · by_cases hbad : q ≤ 0 ∨ q.den ≠ 1
        · exact ⟨badQtyMsg it.book_id, by simp [validateQuantities, hj, hbad]⟩
        · rcases ih hrest with ⟨m, hm⟩
          exact ⟨m, by simp [validateQuantities, hj, hbad, hm]⟩
    · exact ⟨badQtyMsg it.book_id, by simp [validateQuantities, hj]⟩

/-- C5: a request whose `items` field is absent, not an array or empty, or
any of whose quantities fails the positive-integer check after `Number(-)`
coercion (0, -1, 1.5, a non-numeric string), is answered 400 with no change
to the store and no storage operation at all — the rejection happens before
the snapshot read. -/
theorem c5_invalid_input_rejected (db : DB) (uid : String) (itemsF : ItemsField)
    (oid : String) (fault : Bool)
    (h : itemsShapeBad itemsF = true ∨
      ∃ items, itemsF = .arr items ∧
        ∃ it ∈ items, quantityInvalid (jsToNumber it.quantity) = true) :
    (createTransaction db (some uid) itemsF oid fault).2.1.status = 400 ∧
    (createTransaction db (some uid) itemsF oid fault).1 = db ∧
    (createTransaction db (some uid) itemsF oid fault).2.2 = [] := by
  rcases h with hshape | ⟨items, rfl, hinv⟩
  · cases itemsF with
    | missing => simp [createTransaction, planRequest, CResp.status]
    | notArray => simp [createTransaction, planRequest, CResp.status]
    | arr items =>
      have he : items.isEmpty = true := hshape
      simp [createTransaction, planRequest, he, CResp.status]
  · have hne : items.isEmpty = false := by
      rcases hinv with ⟨x, hx, _⟩
      cases items with
      | nil => cases hx
      | cons a as => rfl
    rcases validateQuantities_error_of_invalid items hinv with ⟨m, hm⟩
    simp [createTransaction, planRequest, hne, hm, CResp.status]

/-- Witness for C5: a string quantity that coerces to NaN is rejected with
400, untouched store, and an empty storage trace. -/
theorem c5_invalid_input_rejected_witness :
    (createTransaction oneBookDb (some "u1") (.arr [⟨"b1", .str "abc"⟩]) "o1" false).2.1.status = 400 ∧
    (createTransaction oneBookDb (some "u1") (.arr [⟨"b1", .str "abc"⟩]) "o1" false).1 = oneBookDb ∧
    (createTransaction oneBookDb (some "u1") (.arr [⟨"b1", .str "abc"⟩]) "o1" false).2.2 = [] :=
  c5_invalid_input_rejected oneBookDb "u1" (.arr [⟨"b1", .str "abc"⟩]) "o1" false
    (Or.inr ⟨[⟨"b1", .str "abc"⟩], rfl, ⟨"b1", .str "abc"⟩, by decide, by decide⟩)

theorem mapSet_forall {P : String × ℤ → Prop} (m : List (String × ℤ)) (k : String)
    (v : ℤ) (hm : ∀ p ∈ m, P p) (hv : P (k, v)) : ∀ p ∈ mapSet m k v, P p := by
  intro p hp
  unfold mapSet at hp
  split at hp
  · rcases List.mem_map.mp hp with ⟨q, hq, hfq⟩
    by_cases hk : q.1 == k
    · simp only [hk, if_true] at hfq
      exact hfq ▸ hv
    · simp only [hk, if_false] at hfq
      exact hfq ▸ hm q hq
  · rcases List.mem_append.mp hp with hmem | hmem
    · exact hm p hmem
    · rcases List.mem_singleton.mp hmem with rfl
      exact hv

theorem stockLoop_updates_invariant {P : String × ℤ → Prop} (avail : List Book) :
    ∀ (items : List (String × ℤ)) (tq tp : ℤ) (su : List (String × ℤ)) out,
      stockLoop avail items tq tp su = .ok out →
      (∀ p ∈ su, P p) →
      (∀ b qty, lookupBook avail b.id = some b → ¬b.stockQuantity < qty →
        (b.id, qty) ∈ items → P (b.id, b.stockQuantity - qty)) →
      ∀ p ∈ out.2.2, P p := by
  intro items
  induction items with
  | nil =>
    intro tq tp su out hrun hsu _
    simp only [stockLoop] at hrun
    cases hrun
    exact hsu
  | cons pr rest ih =>
    intro tq tp su out hrun hsu hstep
    rcases pr with ⟨bid, qty⟩
    simp only [stockLoop] at hrun
    rcases hb : lookupBook avail bid with _ | b
    · rw [hb] at hrun; cases hrun
    · rw [hb] at hrun
      dsimp only at hrun
      by_cases hsuff : b.stockQuantity < qty
      · rw [if_pos hsuff] at hrun; cases hrun
      · rw [if_neg hsuff] at hrun
        have hbid : b.id = bid := by
          have := List.find?_some hb
          simpa [beq_iff_eq] using this
        refine ih _ _ _ out hrun ?_ ?_
        · exact mapSet_forall _ _ _ hsu
            (hstep b qty (by rw [hbid]; exact hb) hsuff (by simp [hbid]))
        · intro b2 q2 hl hs hmem
          exact hstep b2 q2 hl hs (List.mem_cons_of_mem _ hmem)

theorem planRequest_ok_destruct (db : DB) (userId : Option String)
    (itemsF : ItemsField) (p : Plan) (h : planRequest db userId itemsF = .ok p) :
    ∃ uid items vitems out,
      userId = some uid ∧ itemsF = .arr items ∧ items.isEmpty = false ∧
      validateQuantities items = .ok vitems ∧
      (findActiveBooks db (vitems.map Prod.fst)).length = (vitems.map Prod.fst).length ∧
      stockLoop (findActiveBooks db (vitems.map Prod.fst)) vitems 0 0 [] = .ok out ∧
      p = ⟨uid, vitems, out.1, out.2.1, out.2.2⟩ := by
  rcases userId with _ | uid
  · cases h
  rcases itemsF with _ | _ | items
  · cases h
  · cases h
  simp only [planRequest] at h
  by_cases he : items.isEmpty = true
  · rw [if_pos he] at h; cases h
  rw [if_neg he] at h
  rcases hv : validateQuantities items with r | vitems <;> rw [hv] at h
  · simp at h
  dsimp only at h
  by_cases hlen :
      (findActiveBooks db (vitems.map Prod.fst)).length ≠ (vitems.map Prod.fst).length
  · rw [if_pos hlen] at h; cases h
  rw [if_neg hlen] at h
  rcases hout : stockLoop (findActiveBooks db (vitems.map Prod.fst)) vitems 0 0 []
    with r | ⟨tq, tp, su⟩ <;> rw [hout] at h
  · simp at h
  dsimp only at h
  cases h
  exact ⟨uid, items, vitems, (tq, tp, su), rfl, rfl, by simpa using he,
    hv, by omega, hout, rfl⟩

theorem planRequest_updates_nonneg (db : DB) (userId : Option String)
    (itemsF : ItemsField) (p : Plan) (h : planRequest db userId itemsF = .ok p) :
    ∀ u ∈ p.stockUpdates, 0 ≤ u.2 := by
  rcases planRequest_ok_destruct db userId itemsF p h with
    ⟨uid, items, vitems, out, _, _, _, _, _, hout, hp⟩
  intro u hu
  refine @stockLoop_updates_invariant (fun u => 0 ≤ u.2) _ vitems 0 0 [] out hout
    (by simp) ?_ u (by rw [hp] at hu; exact hu)
  intro b qty _ hs _
  omega

theorem applyStockUpdates_nonneg (books : List Book) (su : List (String × ℤ))
    (hb : ∀ b ∈ books, 0 ≤ b.stockQuantity) (hs : ∀ u ∈ su, 0 ≤ u.2) :
    ∀ b ∈ applyStockUpdates books su, 0 ≤ b.stockQuantity := by
  intro b hmem
  rcases List.mem_map.mp hmem with ⟨b0, hb0, hfb⟩
  rcases hf : su.find? (fun p => p.1 == b0.id) with _ | u
  · rw [hf] at hfb
    exact hfb ▸ hb b0 hb0
  · rw [hf] at hfb
    exact hfb ▸ hs u (List.mem_of_find?_eq_some hf)

theorem commitPlan_books (db : DB) (oid : String) (p : Plan) (db2 : DB)
    (h : commitPlan db oid p = some db2) :
    db2.books = applyStockUpdates db.books p.stockUpdates ∧
    db2.orders = db.orders ++ [⟨oid, p.userId, p.items.map (fun it => ⟨it.1, it.2⟩)⟩] := by
  unfold commitPlan at h
  split at h
  · cases h; exact ⟨rfl, rfl⟩
  · cases h

/-- C7: order creation never drives a book's stock negative.  Sequentially,
`createTransaction` preserves non-negativity of every stock column; and even
a stale plan committed into a different store state writes only the values
`validated stock - quantity`, which the sufficiency check made non-negative,
so every store a commit can produce still has non-negative stock. -/
theorem c7_stock_nonneg (db dbc : DB) (userId : Option String) (itemsF : ItemsField)
    (oid : String) (fault : Bool) :
    ((∀ b ∈ db.books, 0 ≤ b.stockQuantity) →
      ∀ b ∈ (createTransaction db userId itemsF oid fault).1.books, 0 ≤ b.stockQuantity) ∧
    (∀ p db2, planRequest db userId itemsF = .ok p →
      commitPlan dbc oid p = some db2 →
      (∀ b ∈ dbc.books, 0 ≤ b.stockQuantity) →
      ∀ b ∈ db2.books, 0 ≤ b.stockQuantity) := by
  constructor
  · intro hnn
    rcases hpr : planRequest db userId itemsF with r | p
    · cases r <;> simpa [createTransaction, hpr] using hnn
    · cases fault with
      | true => simpa [createTransaction, hpr] using hnn
      | false =>
        rcases hc : commitPlan db oid p with _ | db2
        · simpa [createTransaction, hpr, hc] using hnn
        · have hbooks := (commitPlan_books db oid p db2 hc).1
          have := applyStockUpdates_nonneg db.books p.stockUpdates hnn
            (planRequest_updates_nonneg db userId itemsF p hpr)
          simpa [createTransaction, hpr, hc, hbooks] using this
  · intro p db2 hpr hc hnn
    have hbooks := (commitPlan_books dbc oid p db2 hc).1
    have := applyStockUpdates_nonneg dbc.books p.stockUpdates hnn
      (planRequest_updates_nonneg db userId itemsF p hpr)
    simpa [hbooks] using this

/-- Witness for C7: a concrete successful order leaves the one remaining
stock value non-negative, both sequentially and for the racing stale
commit. -/
theorem c7_stock_nonneg_witness :
    (0 : ℤ) ≤ (fxBook "b1" "T1" 10 1 (some "Fiction")).stockQuantity ∧
    (0 : ℤ) ≤ (fxBook "b1" "T1" 10 2 none).stockQuantity := by
  constructor
  · exact (c7_stock_nonneg oneBookDb oneBookDb (some "u1") raceItems "o1" false).1
      (by decide) (fxBook "b1" "T1" 10 1 (some "Fiction")) (by decide)
  · exact (c7_stock_nonneg staleDb lowDb (some "u1") (.arr [⟨"b1", .num 3⟩]) "o1" false).2
      stalePlan staleCommitted rfl (by decide) (by decide)
      (fxBook "b1" "T1" 10 2 none) (by decide)

theorem findActiveBooks_length_le_dedup (db : DB) (ids : List String)
    (hbooks : (db.books.map Book.id).Nodup) :
    (findActiveBooks db ids).length ≤ ids.dedup.length := by
  have hnd : ((findActiveBooks db ids).map Book.id).Nodup :=
    hbooks.sublist ((List.filter_sublist _).map Book.id)
  have hsub : (findActiveBooks db ids).map Book.id ⊆ ids.dedup := by
    intro x hx
    rcases List.mem_map.mp hx with ⟨b, hb, rfl⟩
    have hmem := List.of_mem_filter hb
    simp only [Bool.and_eq_true] at hmem
    rw [List.mem_dedup]
    simpa using hmem.1
  calc (findActiveBooks db ids).length
      = ((findActiveBooks db ids).map Book.id).length := by rw [List.length_map]
    _ ≤ ids.dedup.length := (hnd.subperm hsub).length_le

theorem dedup_length_lt_of_not_nodup (ids : List String) (h : ¬ids.Nodup) :
    ids.dedup.length < ids.length := by
  have hsub := List.dedup_sublist ids
  rcases lt_or_eq_of_le hsub.length_le with hlt | heq
  · exact hlt
  · exact absurd ((hsub.eq_of_length heq) ▸ List.nodup_dedup ids) h

/-- C4 as the code actually behaves: the unknown-book check compares the
fetched active-book count against the total number of requested line items,
duplicates included — so a request that repeats a book id is answered 404
even when every id refers to an existing, non-soft-deleted book. -/
theorem c4_duplicate_ids_404 (db : DB) (uid oid : String) (items : List OrderItemInput)
    (fault : Bool) (vitems : List (String × ℤ))
    (hval : validateQuantities items = .ok vitems)
    (hdup : ¬(vitems.map Prod.fst).Nodup)
    (hbooks : (db.books.map Book.id).Nodup)
    (_hpresent : ∀ bid ∈ vitems.map Prod.fst, ∃ b ∈ db.books, b.id = bid ∧ b.deleted = false) :
    (createTransaction db (some uid) (.arr items) oid fault).2.1 = .notFoundBooks := by
  have hine : items ≠ [] := by
    intro hcon
    subst hcon
    have : vitems = [] := by
      simpa [validateQuantities] using hval.symm
    rw [this] at hdup
    simp at hdup
  have hlen : (findActiveBooks db (vitems.map Prod.fst)).length ≠
      (vitems.map Prod.fst).length := by
    have h1 := findActiveBooks_length_le_dedup db (vitems.map Prod.fst) hbooks
    have h2 := dedup_length_lt_of_not_nodup (vitems.map Prod.fst) hdup
    omega
  have hplan : planRequest db (some uid) (.arr items) = .error .notFoundBooks := by
    simp only [planRequest]
    rw [if_neg (by simp [hine]), hval]
    dsimp only
    rw [if_pos hlen]
  simp [createTransaction, hplan]

/-- Counterexample to C4 as stated: a request repeating the id of an
existing, active book is rejected with the 404 branch. -/
theorem c4_counterexample :
    dupDb.books.map Book.id = ["b1"] ∧
    dupDb.books.all (fun b => !b.deleted) = true ∧
    (createTransaction dupDb (some "u1")
      (.arr [⟨"b1", .num 1⟩, ⟨"b1", .num 1⟩]) "o1" false).2.1 = .notFoundBooks ∧
    CResp.notFoundBooks.status = 404 := by
  refine ⟨by decide, by decide, by decide, rfl⟩

/-- Witness for the amended C4 at the concrete duplicate request. -/
theorem c4_duplicate_ids_404_witness :
    (createTransaction dupDb (some "u1")
      (.arr [⟨"b1", .num 1⟩, ⟨"b1", .num 1⟩]) "o1" false).2.1 = .notFoundBooks :=
  c4_duplicate_ids_404 dupDb "u1" "o1" [⟨"b1", .num 1⟩, ⟨"b1", .num 1⟩] false
    [("b1", 1), ("b1", 1)] rfl (by decide) (by decide) (by decide)

theorem mapSet_keys_nodup (m : List (String × ℤ)) (k : String) (v : ℤ)
    (h : (m.map Prod.fst).Nodup) : ((mapSet m k v).map Prod.fst).Nodup := by
  unfold mapSet
  split
  · have heq : (m.map (fun p => if p.1 == k then (k, v) else p)).map Prod.fst =
        m.map Prod.fst := by
      rw [List.map_map]
      apply List.map_congr_left
      intro p _
      by_cases hpk : p.1 == k
      · simp only [Function.comp, hpk, if_true]
        exact (beq_iff_eq.mp hpk).symm
      · simp [Function.comp, hpk]
    rw [heq]; exact h
  · rename_i hany
    rw [List.map_append]
    refine List.Nodup.append h (by simp) ?_
    intro a ha hb
    rcases List.mem_map.mp ha with ⟨p, hp, hpa⟩
    have hak : a = k := by simpa using hb
    apply hany
    exact List.any_eq_true.mpr ⟨p, hp, beq_iff_eq.mpr (hpa.trans hak)⟩

theorem stockLoop_keys_nodup (avail : List Book) :
    ∀ (items : List (String × ℤ)) (tq tp : ℤ) (su : List (String × ℤ)) out,
      stockLoop avail items tq tp su = .ok out →
      (su.map Prod.fst).Nodup → (out.2.2.map Prod.fst).Nodup := by
  intro items
  induction items with
  | nil =>
    intro tq tp su out hrun hsu
    simp only [stockLoop] at hrun
    cases hrun
    exact hsu
  | cons pr rest ih =>
    intro tq tp su out hrun hsu
    rcases pr with ⟨bid, qty⟩
    simp only [stockLoop] at hrun
    rcases hb : lookupBook avail bid with _ | b
    · rw [hb] at hrun; cases hrun
    · rw [hb] at hrun
      dsimp only at hrun
      by_cases hsuff : b.stockQuantity < qty
      · rw [if_pos hsuff] at hrun; cases hrun
      · rw [if_neg hsuff] at hrun
        exact ih _ _ _ out hrun (mapSet_keys_nodup su b.id _ hsu)

/-- Counterexample to C2: the plan for 3 copies was computed from a
snapshot holding stock 5, the store at write time holds stock 1 < 3, yet
the commit succeeds and sets the stock to the precomputed 5 - 3 = 2 — the
write is not conditioned on a stock re-read. -/
theorem c2_counterexample :
    planRequest staleDb (some "u1") (.arr [⟨"b1", .num 3⟩]) = .ok stalePlan ∧
    lowDb.books.map Book.stockQuantity = [1] ∧ ((1 : ℤ) < 3) = True ∧
    commitPlan lowDb "o1" stalePlan = some staleCommitted ∧
    staleCommitted.books.map Book.stockQuantity = [2] := by
  refine ⟨rfl, by decide, by simp, by decide, by decide⟩

/-- C2 as the code actually behaves: validation and the per-book stock
values are computed from the `findMany` snapshot read before
`prisma.$transaction` opens, and the transaction body writes exactly those
precomputed values into whatever store it runs against — each planned value
is `snapshot stock - quantity` for a sufficient snapshot line, and it lands
unconditionally, with no re-read of stock at write time. -/
theorem c2_unconditional_snapshot_write (db dbw db2 : DB) (userId : Option String)
    (itemsF : ItemsField) (p : Plan) (oid : String)
    (hplan : planRequest db userId itemsF = .ok p)
    (hcommit : commitPlan dbw oid p = some db2) :
    ∀ u ∈ p.stockUpdates,
      (bookFor db2 u.1).map Book.stockQuantity = some u.2 ∧
      ∃ b qty, lookupBook (findActiveBooks db (p.items.map Prod.fst)) u.1 = some b ∧
        (u.1, qty) ∈ p.items ∧ u.2 = b.stockQuantity - qty ∧ qty ≤ b.stockQuantity := by
  obtain ⟨uid, items, vitems, out, huid, hitemsF, hne, hv, hlen, hout, hp⟩ :=
    planRequest_ok_destruct db userId itemsF p hplan
  have hkeys : (p.stockUpdates.map Prod.fst).Nodup := by
    rw [hp]
    exact stockLoop_keys_nodup _ vitems 0 0 [] out hout (by simp)
  have hinv : ∀ u ∈ p.stockUpdates,
      ∃ b qty, lookupBook (findActiveBooks db (vitems.map Prod.fst)) u.1 = some b ∧
        (u.1, qty) ∈ vitems ∧ u.2 = b.stockQuantity - qty ∧ qty ≤ b.stockQuantity := by
    intro u hu
    refine @stockLoop_updates_invariant
      (fun u => ∃ b qty, lookupBook (findActiveBooks db (vitems.map Prod.fst)) u.1 = some b ∧
        (u.1, qty) ∈ vitems ∧ u.2 = b.stockQuantity - qty ∧ qty ≤ b.stockQuantity)
      _ vitems 0 0 [] out hout (by simp) ?_ u (by rw [hp] at hu; exact hu)
    intro b qty hl hs hmem
    exact ⟨b, qty, hl, hmem, rfl, by omega⟩
  intro u hu
  refine ⟨?_, by have := hinv u hu; rw [hp]; simpa using this⟩
  obtain ⟨hbooks2, _⟩ := commitPlan_books dbw oid p db2 hcommit
  have hguard : p.stockUpdates.all (fun w => dbw.books.any (fun b => b.id == w.1)) = true := by
    unfold commitPlan at hcommit
    split at hcommit
    · assumption
    · cases hcommit
  have hany : dbw.books.any (fun b => b.id == u.1) = true :=
    List.all_eq_true.mp hguard u hu
  have hfind : ∃ b0, dbw.books.find? (fun b => b.id == u.1) = some b0 := by
    have hs := List.find?_isSome.mpr (List.any_eq_true.mp hany)
    rcases hf : dbw.books.find? (fun b => b.id == u.1) with _ | b0
    · rw [hf] at hs; cases hs
    · exact ⟨b0, hf⟩
  rcases hfind with ⟨b0, hb0⟩
  have hb0id : b0.id = u.1 := by
    have := List.find?_some hb0
    simpa using this
  have hsu_find : p.stockUpdates.find? (fun w => w.1 == u.1) = some u := by
    apply find?_key_of_nodup Prod.fst _ _ hkeys u hu (by simp)
    intro y hy
    exact beq_iff_eq.mp hy
  have hidpre : ∀ b : Book,
      (match p.stockUpdates.find? (fun w : String × ℤ => w.1 == b.id) with
        | some w => { b with stockQuantity := w.2 }
        | none => b).id = b.id := by
    intro b
    rcases p.stockUpdates.find? (fun w : String × ℤ => w.1 == b.id) with _ | w <;> rfl
  have hpred : ((fun b : Book => b.id == u.1) ∘ (fun b : Book =>
      match p.stockUpdates.find? (fun w : String × ℤ => w.1 == b.id) with
      | some w => { b with stockQuantity := w.2 }
      | none => b)) = (fun b : Book => b.id == u.1) := by
    funext b
    simp only [Function.comp]
    rw [hidpre b]
  have hres : (applyStockUpdates dbw.books p.stockUpdates).find? (fun b => b.id == u.1)
      = some { b0 with stockQuantity := u.2 } := by
    unfold applyStockUpdates
    rw [List.find?_map, hpred, hb0, Option.map_some']
    rw [hb0id, hsu_find]
  show (bookFor db2 u.1).map Book.stockQuantity = some u.2
  unfold bookFor
  rw [hbooks2, hres]
  rfl

/-- Witness for the amended C2: the stale plan's single write lands in the
low-stock store with the snapshot-derived value 2 = 5 - 3. -/
theorem c2_unconditional_snapshot_write_witness :
    (bookFor staleCommitted "b1").map Book.stockQuantity = some 2 ∧ (2 : ℤ) = 5 - 3 := by
  constructor
  · exact ((c2_unconditional_snapshot_write staleDb lowDb staleCommitted (some "u1")
      (.arr [⟨"b1", .num 3⟩]) stalePlan "o1" rfl (by decide)) ("b1", 2) (by decide)).1
  · norm_num

theorem singleRequest_valid (bid : String) (q : ℕ) (hq : 0 < q) :
    validateQuantities [⟨bid, .num (q : ℚ)⟩] = .ok [(bid, (q : ℤ))] := by
  have h1 : ¬((q : ℚ) ≤ 0 ∨ ((q : ℚ)).den ≠ 1) := by
    push_neg
    refine ⟨by exact_mod_cast hq, by simp [Rat.den_natCast]⟩
  simp only [validateQuantities, jsToNumber]
  rw [if_neg h1]
  simp [validateQuantities, Rat.num_natCast]

theorem singleRequest_insufficient (db : DB) (b : Book) (uid bid oid : String) (q : ℕ)
    (hb : db.books = [b]) (hid : b.id = bid) (hdel : b.deleted = false) (hq : 0 < q)
    (hin : b.stockQuantity < (q : ℤ)) :
    createTransaction db (some uid) (.arr [⟨bid, .num (q : ℚ)⟩]) oid false =
      (db, .conflict (insufficientMsg b.title b.stockQuantity (q : ℤ)), [.readBooks [bid]]) := by
  have hvq := singleRequest_valid bid q hq
  have hfind : findActiveBooks db [bid] = [b] := by
    simp [findActiveBooks, hb, hid, hdel]
  have hlookup : lookupBook [b] bid = some b := by simp [lookupBook, hid]
  simp [createTransaction, planRequest, hvq, hfind, stockLoop, hlookup, hin, itemsIds]

theorem singleRequest_success (db : DB) (b : Book) (uid bid oid : String) (q : ℕ)
    (hb : db.books = [b]) (hid : b.id = bid) (hdel : b.deleted = false) (hq : 0 < q)
    (hin : ¬b.stockQuantity < (q : ℤ)) :
    createTransaction db (some uid) (.arr [⟨bid, .num (q : ℚ)⟩]) oid false =
      ({ users := db.users,
         books := [{ b with stockQuantity := b.stockQuantity - (q : ℤ) }],
         orders := db.orders ++ [⟨oid, uid, [⟨bid, (q : ℤ)⟩]⟩] },
       .created oid (q : ℤ) (b.price * (q : ℤ)),
       [.readBooks [bid], .txnWrite]) := by
  have hvq := singleRequest_valid bid q hq
  have hfind : findActiveBooks db [bid] = [b] := by
    simp [findActiveBooks, hb, hid, hdel]
  have hlookup : lookupBook [b] bid = some b := by simp [lookupBook, hid]
  simp [createTransaction, planRequest, hvq, hfind, stockLoop, hlookup, hin, itemsIds,
    commitPlan, hb, hid, mapSet, applyStockUpdates]

theorem runSerial_characterization (uid bid oid : String) (q : ℕ) (hq : 0 < q) :
    ∀ (N S : ℕ) (db : DB) (b : Book),
      db.books = [b] → b.id = bid → b.deleted = false → b.stockQuantity = (S : ℤ) →
      (runSerial uid bid oid q N db).2 = min N (S / q) ∧
      (runSerial uid bid oid q N db).1.books =
        [{ b with stockQuantity := (S : ℤ) - ((min N (S / q) * q : ℕ) : ℤ) }] := by
  intro N
  induction N with
  | zero =>
    intro S db b hb hid hdel hstock
    refine ⟨by simp [runSerial], ?_⟩
    simp only [runSerial, Nat.zero_min, Nat.zero_mul, Nat.cast_zero, sub_zero]
    rw [hb, ← hstock]
  | succ N ih =>
    intro S db b hb hid hdel hstock
    by_cases hcase : q ≤ S
    · have hin : ¬b.stockQuantity < (q : ℤ) := by
        rw [hstock]
        exact_mod_cast not_lt.mpr hcase
      have hstep := singleRequest_success db b uid bid oid q hb hid hdel hq hin
      have hdiv : S / q = (S - q) / q + 1 := Nat.div_eq_sub_div hq hcase
      have hrec := ih (S - q)
        ⟨db.users, [{ b with stockQuantity := b.stockQuantity - (q : ℤ) }],
          db.orders ++ [⟨oid, uid, [⟨bid, (q : ℤ)⟩]⟩]⟩
        { b with stockQuantity := b.stockQuantity - (q : ℤ) }
        rfl hid hdel (by rw [hstock]; push_cast [hcase]; ring_nf)
      rw [runSerial, hstep]
      dsimp only
      rcases hrec with ⟨hcount, hbooks⟩
      constructor
      · rw [hcount, hdiv]
        simp [CResp.status, Nat.succ_min_succ]
      · rw [hbooks]
        have hmin : min (N + 1) (S / q) = min N ((S - q) / q) + 1 := by
          rw [hdiv, Nat.succ_min_succ]
        rw [hmin]
        congr 1
        rw [hstock]
        push_cast [hcase]
        ring_nf
    · have hin : b.stockQuantity < (q : ℤ) := by
        rw [hstock]
        exact_mod_cast not_le.mp hcase
      have hstep := singleRequest_insufficient db b uid bid oid q hb hid hdel hq hin
      have hdiv : S / q = 0 := Nat.div_eq_of_lt (not_le.mp hcase)
      have hrec := ih S db b hb hid hdel hstock
      rw [runSerial, hstep]
      dsimp only
      rcases hrec with ⟨hcount, hbooks⟩
      refine ⟨?_, by rw [hbooks, hdiv]; simp⟩
      rw [hcount, hdiv]
      simp [CResp.status]

/-- Counterexample to C1: with stock 3 and two racing requests for 2 copies
each (combined demand 4 > 3, each request ≤ 3), both handlers validate
against the same snapshot, both commits are admitted, two orders persist
and the final stock is 1 — not the `floor(3/2) = 1` successes and final
stock `3 - 1*2` the claim requires, and both racing orders committed. -/
theorem c1_counterexample :
    planRequest oneBookDb (some "u1") raceItems = .ok racePlan ∧
    commitPlan oneBookDb "oA" racePlan = some
      ⟨oneBookDb.users, [fxBook "b1" "T1" 10 1 (some "Fiction")],
        [⟨"oA", "u1", [⟨"b1", 2⟩]⟩]⟩ ∧
    commitPlan ⟨oneBookDb.users, [fxBook "b1" "T1" 10 1 (some "Fiction")],
        [⟨"oA", "u1", [⟨"b1", 2⟩]⟩]⟩ "oB" racePlan = some raceFinal ∧
    raceFinal.orders.length = 2 ∧
    raceFinal.books.map Book.stockQuantity = [1] ∧
    (2 * 2 > 3 ∧ 2 ≤ 3 ∧ ¬(2 = 3 / 2) ∧ ¬((1 : ℤ) = 3 - 2 * 2)) := by
  refine ⟨rfl, by decide, by decide, by decide, by decide, by decide⟩

/-- C1 amended: when the requests are serialized — each handler runs only
after the previous one fully finished — N single-line orders of quantity q
against initial stock S with N*q > S ≥ q succeed exactly floor(S/q) times
and leave stock S - floor(S/q)*q; under truly concurrent interleaving the
code has no conditional decrement and both racing orders can commit (see
the counterexample). -/
theorem c1_serial_floor (uid bid oid : String) (q S N : ℕ) (db : DB) (b : Book)
    (hb : db.books = [b]) (hid : b.id = bid) (hdel : b.deleted = false)
    (hstock : b.stockQuantity = (S : ℤ))
    (hq : 0 < q) (_hqS : q ≤ S) (hN : S < N * q) :
    (runSerial uid bid oid q N db).2 = S / q ∧
    (runSerial uid bid oid q N db).1.books.map Book.stockQuantity =
      [(S : ℤ) - ((S / q * q : ℕ) : ℤ)] := by
  have hlt : S / q < N := (Nat.div_lt_iff_lt_mul hq).mpr (by omega)
  have hmin : min N (S / q) = S / q := min_eq_right (le_of_lt hlt)
  obtain ⟨hcount, hbooks⟩ :=
    runSerial_characterization uid bid oid q hq N S db b hb hid hdel hstock
  rw [hmin] at hcount hbooks
  exact ⟨hcount, by rw [hbooks]; rfl⟩

/-- Witness for the amended C1: stock 3, quantity 2, two serialized
requests — exactly one succeeds and stock 1 remains. -/
theorem c1_serial_floor_witness :
    (runSerial "u1" "b1" "o1" 2 2 serialDb).2 = 1 ∧
    (runSerial "u1" "b1" "o1" 2 2 serialDb).1.books.map Book.stockQuantity = [1] := by
  obtain ⟨h1, h2⟩ := c1_serial_floor "u1" "b1" "o1" 2 3 2 serialDb serialBook
    rfl rfl rfl rfl (by decide) (by decide) (by decide)
  exact ⟨h1.trans (by decide), h2.trans (by decide)⟩

theorem findActiveBooks_length_eq (db : DB) (ids : List String)
    (hbooks : (db.books.map Book.id).Nodup) (hids : ids.Nodup)
    (hpresent : ∀ bid ∈ ids, ∃ b ∈ db.books, b.id = bid ∧ b.deleted = false) :
    (findActiveBooks db ids).length = ids.length := by
  have hnd : ((findActiveBooks db ids).map Book.id).Nodup :=
    hbooks.sublist ((List.filter_sublist _).map Book.id)
  have hsub1 : (findActiveBooks db ids).map Book.id ⊆ ids := by
    intro x hx
    rcases List.mem_map.mp hx with ⟨b, hb, rfl⟩
    have hmem := List.of_mem_filter hb
    simp only [Bool.and_eq_true] at hmem
    simpa using hmem.1
  have hsub2 : ids ⊆ (findActiveBooks db ids).map Book.id := by
    intro bid hbid
    obtain ⟨b, hbmem, hbeq, hact⟩ := hpresent bid hbid
    refine List.mem_map.mpr ⟨b, ?_, hbeq⟩
    refine List.mem_filter.mpr ⟨hbmem, ?_⟩
    simp [hbeq, hact, hbid]
  have hperm := (hnd.subperm hsub1).antisymm (hids.subperm hsub2)
  calc (findActiveBooks db ids).length
      = ((findActiveBooks db ids).map Book.id).length := by rw [List.length_map]
    _ = ids.length := hperm.length_eq

theorem stockLoop_totals (db : DB) (avail : List Book) :
    ∀ (vitems : List (String × ℤ)) (tq tp : ℤ) (su : List (String × ℤ)),
      (∀ pr ∈ vitems, lookupBook avail pr.1 = bookFor db pr.1 ∧ (bookFor db pr.1).isSome) →
      (firstInsufficient db vitems = none →
        ∃ su2, stockLoop avail vitems tq tp su =
          .ok (tq + specTotalQuantity vitems, tp + specTotalPrice db vitems, su2)) ∧
      (∀ b qq, firstInsufficient db vitems = some (b, qq) →
        stockLoop avail vitems tq tp su =
          .error (.conflict (insufficientMsg b.title b.stockQuantity qq))) := by
  intro vitems
  induction vitems with
  | nil =>
    intro tq tp su _
    constructor
    · intro _
      exact ⟨su, by simp [stockLoop, specTotalQuantity, specTotalPrice]⟩
    · intro b qq hcon
      cases hcon
  | cons pr rest ih =>
    intro tq tp su hlk
    obtain ⟨hpr1, hpr2⟩ := hlk pr (List.mem_cons_self pr rest)
    rcases hbf : bookFor db pr.1 with _ | b
    · rw [hbf] at hpr2; cases hpr2
    have hlook : lookupBook avail pr.1 = some b := by rw [hpr1, hbf]
    have hrest : ∀ x ∈ rest, lookupBook avail x.1 = bookFor db x.1 ∧ (bookFor db x.1).isSome :=
      fun x hx => hlk x (List.mem_cons_of_mem pr hx)
    by_cases hin : b.stockQuantity < pr.2
    · constructor
      · intro hnone
        exfalso
        simp only [firstInsufficient, hbf, if_pos hin] at hnone
        cases hnone
      · intro b2 qq2 hsome
        simp only [firstInsufficient, hbf, if_pos hin, Option.some_inj] at hsome
        rcases pr with ⟨bid, qty⟩
        simp only [Prod.mk.injEq] at hsome
        rcases hsome with ⟨rfl, rfl⟩
        simp only [stockLoop, hlook, if_pos hin]
    · have hfi : firstInsufficient db (pr :: rest) = firstInsufficient db rest := by
        simp only [firstInsufficient, hbf, if_neg hin]
      obtain ⟨ihok, iherr⟩ :=
        ih (tq + pr.2) (tp + b.price * pr.2) (mapSet su b.id (b.stockQuantity - pr.2)) hrest
      constructor
      · intro hnone
        rw [hfi] at hnone
        obtain ⟨su2, hloop⟩ := ihok hnone
        refine ⟨su2, ?_⟩
        rcases pr with ⟨bid, qty⟩
        simp only [stockLoop, hlook, if_neg hin]
        rw [hloop]
        simp only [specTotalQuantity, specTotalPrice, List.map_cons, List.sum_cons, hbf]
        rw [add_assoc, add_assoc]
      · intro b2 qq2 hsome
        rw [hfi] at hsome
        have hloop := iherr b2 qq2 hsome
        rcases pr with ⟨bid, qty⟩
        simp only [stockLoop, hlook, if_neg hin]
        exact hloop

/-- C6: for a valid, duplicate-free request over existing active books,
`createTransaction` answers 409 with the title, available and requested
quantities of the first insufficient line if any line is short, and
otherwise commits and answers 201 carrying the new order id, the sum of the
requested quantities and the sum over lines of unit price times quantity. -/
theorem c6_success_totals (db : DB) (uid oid : String) (items : List OrderItemInput)
    (vitems : List (String × ℤ))
    (hval : validateQuantities items = .ok vitems)
    (hne : items ≠ [])
    (hbooks : (db.books.map Book.id).Nodup)
    (hids : (vitems.map Prod.fst).Nodup)
    (hpresent : ∀ bid ∈ vitems.map Prod.fst, ∃ b ∈ db.books, b.id = bid ∧ b.deleted = false) :
    (createTransaction db (some uid) (.arr items) oid false).2.1 =
      match firstInsufficient db vitems with
      | some (b, qq) => .conflict (insufficientMsg b.title b.stockQuantity qq)
      | none => .created oid (specTotalQuantity vitems) (specTotalPrice db vitems) := by
  have hlen := findActiveBooks_length_eq db (vitems.map Prod.fst) hbooks hids hpresent
  have hlookups : ∀ pr ∈ vitems,
      lookupBook (findActiveBooks db (vitems.map Prod.fst)) pr.1 = bookFor db pr.1 ∧
      (bookFor db pr.1).isSome := by
    intro pr hpr
    have hidin : pr.1 ∈ vitems.map Prod.fst := List.mem_map_of_mem Prod.fst hpr
    obtain ⟨b, hbmem, hbid, hact⟩ := hpresent pr.1 hidin
    have hfb : b ∈ findActiveBooks db (vitems.map Prod.fst) := by
      refine List.mem_filter.mpr ⟨hbmem, ?_⟩
      simp [hbid, hact, hidin]
    have hnd : ((findActiveBooks db (vitems.map Prod.fst)).map Book.id).Nodup :=
      hbooks.sublist ((List.filter_sublist _).map Book.id)
    have h1 : lookupBook (findActiveBooks db (vitems.map Prod.fst)) pr.1 = some b := by
      apply find?_key_of_nodup Book.id _ _ hnd b hfb (by simp [hbid])
      intro y hy
      rw [beq_iff_eq.mp hy, hbid]
    have h2 : bookFor db pr.1 = some b := by
      apply find?_key_of_nodup Book.id _ _ hbooks b hbmem (by simp [hbid])
      intro y hy
      rw [beq_iff_eq.mp hy, hbid]
    rw [h1, h2]
    exact ⟨rfl, rfl⟩
  obtain ⟨hok, herr⟩ := stockLoop_totals db (findActiveBooks db (vitems.map Prod.fst))
    vitems 0 0 [] hlookups
  rcases hfi : firstInsufficient db vitems with _ | ⟨b, qq⟩
  · obtain ⟨su2, hloop⟩ := hok hfi
    have hplan : planRequest db (some uid) (.arr items) =
        .ok ⟨uid, vitems, 0 + specTotalQuantity vitems, 0 + specTotalPrice db vitems, su2⟩ := by
      simp only [planRequest]
      rw [if_neg (by simp [hne]), hval]
      dsimp only
      rw [if_neg (by omega), hloop]
    have hguard : ∀ u ∈ su2, db.books.any (fun bk => bk.id == u.1) = true := by
      intro u hu
      refine @stockLoop_updates_invariant
        (fun u => db.books.any (fun bk => bk.id == u.1) = true)
        _ vitems 0 0 [] (0 + specTotalQuantity vitems, 0 + specTotalPrice db vitems, su2)
        hloop (by simp) ?_ u hu
      intro bk qty hlk _ _
      have hbkmem : bk ∈ findActiveBooks db (vitems.map Prod.fst) :=
        List.mem_of_find?_eq_some hlk
      exact List.any_eq_true.mpr ⟨bk, List.mem_of_mem_filter hbkmem, by simp⟩
    have hcp : commitPlan db oid
        ⟨uid, vitems, 0 + specTotalQuantity vitems, 0 + specTotalPrice db vitems, su2⟩ =
        some { db with
          orders := db.orders ++ [⟨oid, uid, vitems.map (fun it => ⟨it.1, it.2⟩)⟩],
          books := applyStockUpdates db.books su2 } := by
      unfold commitPlan
      rw [if_pos (List.all_eq_true.mpr hguard)]
    simp only [zero_add] at hplan hcp
    simp [createTransaction, hplan, hcp]
  · have hloop := herr b qq hfi
    have hplan : planRequest db (some uid) (.arr items) =
        .error (.conflict (insufficientMsg b.title b.stockQuantity qq)) := by
      simp only [planRequest]
      rw [if_neg (by simp [hne]), hval]
      dsimp only
      rw [if_neg (by omega), hloop]
    simp [createTransaction, hplan]

/-- Witness for C6: a 2-copy order of the stock-3 book commits with totals
(2, 20); a 4-copy order is refused with the 409 message naming title,
available and requested quantities. -/
theorem c6_success_totals_witness :
    (createTransaction oneBookDb (some "u1") (.arr [⟨"b1", .num 2⟩]) "o1" false).2.1 =
      .created "o1" 2 20 ∧
    (createTransaction oneBookDb (some "u1") (.arr [⟨"b1", .num 4⟩]) "o1" false).2.1 =
      .conflict "Stock for T1 is insufficient. Available: 3, Requested: 4." := by
  constructor
  · exact (c6_success_totals oneBookDb "u1" "o1" [⟨"b1", .num 2⟩] [("b1", 2)]
      rfl (by decide) (by decide) (by decide) (by decide)).trans (by decide)
  · exact (c6_success_totals oneBookDb "u1" "o1" [⟨"b1", .num 4⟩] [("b1", 4)]
      rfl (by decide) (by decide) (by decide) (by decide)).trans (by decide)

theorem combineMax_assoc (a b c : Option (String × ℤ)) :
    combineMax (combineMax a b) c = combineMax a (combineMax b c) := by
  rcases a with _ | a
  · rcases b with _ | b <;> rcases c with _ | c <;> simp [combineMax]
  rcases b with _ | b
  · rcases c with _ | c <;> simp [combineMax]
  rcases c with _ | c
  · by_cases h1 : a.2 ≥ b.2 <;> simp [combineMax, h1]
  by_cases h1 : a.2 ≥ b.2 <;> by_cases h2 : b.2 ≥ c.2 <;> by_cases h3 : a.2 ≥ c.2 <;>
    simp [combineMax, h1, h2, h3] <;> omega

theorem combineMin_assoc (a b c : Option (String × ℤ)) :
    combineMin (combineMin a b) c = combineMin a (combineMin b c) := by
  rcases a with _ | a
  · rcases b with _ | b <;> rcases c with _ | c <;> simp [combineMin]
  rcases b with _ | b
  · rcases c with _ | c <;> simp [combineMin]
  rcases c with _ | c
  · by_cases h1 : a.2 ≥ b.2 <;> simp [combineMin, h1]
  by_cases h1 : a.2 ≥ b.2 <;> by_cases h2 : b.2 ≥ c.2 <;> by_cases h3 : a.2 ≥ c.2 <;>
    simp [combineMin, h1, h2, h3] <;> omega

theorem head?_insertDesc (x : String × ℤ) (s : List (String × ℤ)) :
    (insertDesc x s).head? = combineMax s.head? (some x) := by
  cases s with
  | nil => rfl
  | cons y ys =>
    simp only [insertDesc, combineMax, List.head?_cons]
    split_ifs <;> rfl

theorem mem_insertDesc (z x : String × ℤ) (s : List (String × ℤ)) :
    z ∈ insertDesc x s ↔ z = x ∨ z ∈ s := by
  induction s with
  | nil => simp [insertDesc]
  | cons y ys ih =>
    simp only [insertDesc]
    split_ifs
    · simp only [List.mem_cons, ih]
      tauto
    · simp only [List.mem_cons]

theorem insertDesc_ne_nil (x : String × ℤ) (s : List (String × ℤ)) :
    insertDesc x s ≠ [] := by
  cases s with
  | nil => simp [insertDesc]
  | cons y ys =>
    simp only [insertDesc]
    split_ifs <;> simp

theorem sortedDesc_insertDesc (x : String × ℤ) (s : List (String × ℤ))
    (hs : s.Pairwise (fun a b => b.2 ≤ a.2)) :
    (insertDesc x s).Pairwise (fun a b => b.2 ≤ a.2) := by
  induction s with
  | nil => simp [insertDesc]
  | cons y ys ih =>
    obtain ⟨hy, hys⟩ := List.pairwise_cons.mp hs
    simp only [insertDesc]
    split_ifs with hyx
    · refine List.pairwise_cons.mpr ⟨?_, ih hys⟩
      intro z hz
      rcases (mem_insertDesc z x ys).mp hz with rfl | hmem
      · exact hyx
      · exact hy z hmem
    · refine List.pairwise_cons.mpr ⟨?_, hs⟩
      intro z hz
      rcases List.mem_cons.mp hz with rfl | hmem
      · omega
      · have := hy z hmem
        omega

theorem getLast?_mem_of_eq {α : Type} (l : List α) (a : α) (h : l.getLast? = some a) :
    a ∈ l := by
  have hm : a ∈ l.getLast? := by rw [h]; rfl
  rcases List.mem_getLast?_eq_getLast hm with ⟨hne, heq⟩
  rw [heq]
  exact List.getLast_mem hne

theorem getLast?_insertDesc (x : String × ℤ) (s : List (String × ℤ))
    (hs : s.Pairwise (fun a b => b.2 ≤ a.2)) :
    (insertDesc x s).getLast? = combineMin s.getLast? (some x) := by
  induction s with
  | nil => rfl
  | cons y ys ih =>
    obtain ⟨hy, hys⟩ := List.pairwise_cons.mp hs
    simp only [insertDesc]
    split_ifs with hyx
    · rcases hne : insertDesc x ys with _ | ⟨z, zs⟩
      · exact absurd hne (insertDesc_ne_nil x ys)
      · rw [List.getLast?_cons_cons, ← hne, ih hys]
        cases ys with
        | nil => simp [combineMin, hyx]
        | cons w ws => rw [List.getLast?_cons_cons]
    · rw [List.getLast?_cons_cons]
      rcases hlast : (y :: ys).getLast? with _ | z
      · simp at hlast
      · have hzmem := getLast?_mem_of_eq _ _ hlast
        have hzy : z.2 ≤ y.2 := by
          rcases List.mem_cons.mp hzmem with rfl | hmem
          · omega
          · exact hy z hmem
        simp only [combineMin]
        rw [if_neg (by omega)]

theorem foldl_insertDesc_head? (l : List (String × ℤ)) :
    ∀ acc, ((l.foldl (fun a x => insertDesc x a) acc).head? =
      combineMax acc.head? (firstMaxEntry l)) := by
  induction l with
  | nil =>
    intro acc
    simp only [List.foldl_nil, firstMaxEntry]
    cases hh : acc.head? <;> rfl
  | cons x xs ih =>
    intro acc
    rw [List.foldl_cons, ih (insertDesc x acc), head?_insertDesc]
    rw [firstMaxEntry, ← combineMax_assoc]

theorem foldl_insertDesc_getLast? (l : List (String × ℤ)) :
    ∀ acc, acc.Pairwise (fun a b => b.2 ≤ a.2) →
      ((l.foldl (fun a x => insertDesc x a) acc).getLast? =
        combineMin acc.getLast? (lastMinEntry l)) := by
  induction l with
  | nil =>
    intro acc _
    simp only [List.foldl_nil, lastMinEntry]
    cases hh : acc.getLast? <;> rfl
  | cons x xs ih =>
    intro acc hacc
    rw [List.foldl_cons, ih (insertDesc x acc) (sortedDesc_insertDesc x acc hacc),
      getLast?_insertDesc x acc hacc]
    rw [lastMinEntry, ← combineMin_assoc]

theorem sortDesc_head? (l : List (String × ℤ)) :
    (sortDesc l).head? = firstMaxEntry l := by
  rw [sortDesc, foldl_insertDesc_head?]
  cases hh : firstMaxEntry l <;> rfl

theorem sortDesc_getLast? (l : List (String × ℤ)) :
    (sortDesc l).getLast? = lastMinEntry l := by
  rw [sortDesc, foldl_insertDesc_getLast? l [] (by simp)]
  cases hh : lastMinEntry l <;> rfl

theorem statsFold_fst (db : DB) :
    ∀ (items : List OrderItem) (t : ℤ) (m : List (String × ℤ)),
      (items.foldl (statsStep db) (t, m)).1 =
        t + (items.map (fun it =>
          match bookFor db it.bookId with
          | none => 0
          | some b => b.price * it.quantity)).sum := by
  intro items
  induction items with
  | nil => intro t m; simp
  | cons it rest ih =>
    intro t m
    rw [List.foldl_cons, List.map_cons, List.sum_cons]
    rcases hbf : bookFor db it.bookId with _ | b
    · simp only [statsStep, hbf]
      rw [ih t m, zero_add]
    · simp only [statsStep, hbf]
      rw [ih (t + b.price * it.quantity) (bumpGenre m (genreKey b) it.quantity), add_assoc]

theorem statsAgg_fst (db : DB) : (statsAgg db).1 = specRevenue db := by
  rw [statsAgg, specRevenue, statsFold_fst db (allItems db) 0 [], zero_add]

/-- Counterexample to C9: with buckets Fiction 1 (first encountered),
Science 1, History 5, the code's fewest-sold genre is Science — the
last-encountered entry among the tied minima — while the claim's
first-encountered tie-breaking names Fiction. -/
theorem c9_counterexample :
    (statsAgg dbTie).2 = [("Fiction", 1), ("Science", 1), ("History", 5)] ∧
    (getTransactionStatistics dbTie).fewest_book_sales_genre = some "Science" ∧
    (specFewestFirstEncountered (statsAgg dbTie).2).map Prod.fst = some "Fiction" ∧
    ¬(some "Science" = (some "Fiction" : Option String)) := by
  refine ⟨by decide, by decide, by decide, by decide⟩

/-- C9 amended: statistics across all orders report the order count, the
average as total revenue at current prices over the order count (0 with no
orders), the most-sold genre as the first-encountered bucket attaining the
maximal quantity, and the fewest-sold genre as the LAST-encountered bucket
attaining the minimal quantity (the stable descending sort keeps insertion
order among ties and the code takes the last element); zero-sale genres
never enter the buckets and no-genre books land in the "Unknown Genre"
bucket by construction of the aggregation; on the worked example the
report is (2, 17.5, Science, Fiction). -/
theorem c9_statistics_characterization (db : DB) :
    (getTransactionStatistics db).total_transactions = db.orders.length ∧
    (getTransactionStatistics db).average_transaction_amount =
      (if db.orders.length = 0 then 0 else (specRevenue db : ℚ) / (db.orders.length : ℚ)) ∧
    (getTransactionStatistics db).most_book_sales_genre =
      (firstMaxEntry (statsAgg db).2).map Prod.fst ∧
    (getTransactionStatistics db).fewest_book_sales_genre =
      (lastMinEntry (statsAgg db).2).map Prod.fst ∧
    getTransactionStatistics dbStats =
      ⟨2, 35 / 2, some "Science", some "Fiction"⟩ := by
  refine ⟨rfl, ?_, ?_, ?_, ?_⟩
  · simp only [getTransactionStatistics, statsAgg_fst]
    rcases Nat.eq_zero_or_pos db.orders.length with hz | hpos
    · rw [hz]
      simp
    · rw [if_pos hpos, if_neg (by omega)]
  · simp only [getTransactionStatistics]
    rw [sortDesc_head?]
  · simp only [getTransactionStatistics]
    rw [sortDesc_getLast?]
  · have h1 : (statsAgg dbStats).1 = 35 := by decide
    have h2 : dbStats.orders.length = 2 := by decide
    have h3 : (getTransactionStatistics dbStats).most_book_sales_genre = some "Science" := by
      decide
    have h4 : (getTransactionStatistics dbStats).fewest_book_sales_genre = some "Fiction" := by
      decide
    have h5 : (getTransactionStatistics dbStats).average_transaction_amount = 35 / 2 := by
      simp only [getTransactionStatistics, h1, h2]
      norm_num
    have h6 : (getTransactionStatistics dbStats).total_transactions = 2 := by decide
    cases hcase9 : getTransactionStatistics dbStats
    rw [hcase9] at h3 h4 h5 h6
    simp only at h3 h4 h5 h6
    rw [h3, h4, h5, h6]

end Bookstore
